import Mathlib

/-!
Shallow embedding of `upgrade/upgrade.go` from the badgerds-upgrade
repository, together with theorems checking the natural-language
specification against it.

The Go code migrates badger key-value stores found under a repository
root from the badger 0.8 on-disk format to the badger 1.0 format.  The
embedding models:

* the JSON datastore spec document as a `JVal` tree and `parseSpecs`
  as a function on association lists (Go's unmarshalled
  `map[string]interface{}`; keys of an unmarshalled Go map are unique,
  and `jlookup` models map indexing);
* the repository version gate (`checkRepoVersion`, with models of Go's
  `strings.TrimSpace` and `strconv.Atoi`);
* the filesystem as an association list from directory path to
  `DirState`; the two storage-engine adapters are black boxes (per the
  spec they are external collaborators), so each pre-existing directory
  carries the outcome its `badger10.Open` / `badger08.NewKV` probe
  would return, and the key/value pairs of the old store in its native
  iteration order;
* fallible OS and storage operations inside one path's migration
  (`ioutil.TempDir`, `badger10.Open` on the fresh directory, `txn.Set`,
  `txn.Commit`, `os.Remove`, `os.Rename`) as a `MigOracle` record of
  outcomes, so that every interleaving of failures the code can
  encounter is a concrete model input;
* the producer/consumer channel of `try08`/`migrateData`
  synchronously: the consumer receives the produced pairs in order and
  stops at the first failure, at which point the shared context is
  cancelled and the producer abandons iteration (recorded in the
  `cancelled` flag of `MigResult`).
-/

/-- Generic JSON value, the model of Go's `interface{}` after
`encoding/json.Unmarshal`.  Objects are association lists standing for
`map[string]interface{}` (keys unique). -/
inductive JVal where
  | str (s : String)
  | num (n : Int)
  | bool (b : Bool)
  | null
  | arr (elems : List JVal)
  | obj (fields : List (String × JVal))

/-- Model of indexing a Go `map[string]interface{}`: find the value for
a key (keys of an unmarshalled map are unique, so first match is the
match); `none` models a missing key, whose type assertion then fails. -/
def jlookup : List (String × JVal) → String → Option JVal
  | [], _ => none
  | (k, v) :: rest, key => if k = key then some v else jlookup rest key

theorem jlookup_sizeOf {l : List (String × JVal)} {k : String} {v : JVal}
    (h : jlookup l k = some v) : sizeOf v < sizeOf l := by
  induction l with
  | nil => simp [jlookup] at h
  | cons p rest ih =>
    obtain ⟨pk, pv⟩ := p
    by_cases hk : pk = k
    · simp [jlookup, hk] at h
      subst h
      simp
      omega
    · simp [jlookup, hk] at h
      have := ih h
      simp
      omega

mutual
/-- Embedding of `parseSpecs` (upgrade.go lines 244-293): dispatch on
the node's `"type"` field and collect `badgerds` leaf paths
depth-first.  Each `errors.New(...)` in the source becomes
`Except.error` with the same message. -/
def parseSpecs (spec : List (String × JVal)) : Except String (List String) :=
  match hts : jlookup spec "type" with
  | some (JVal.str t) =>
    if t = "mount" then
      match hms : jlookup spec "mounts" with
      | some (JVal.arr mounts) => parseMounts mounts
      | _ => Except.error "unexpected mounts type"
    else if t = "measure" then
      match hch : jlookup spec "child" with
      | some (JVal.obj child) => parseSpecs child
      | _ => Except.error "unexpected child type"
    else if t = "badgerds" then
      match jlookup spec "path" with
      | some (JVal.str path) => Except.ok [path]
      | _ => Except.error "unexpected path type"
    else if t = "flatfs" then Except.ok []
    else if t = "levelds" then Except.ok []
    else Except.error "unexpected ds type"
  | _ => Except.error "unexpected spec type"
termination_by sizeOf spec
decreasing_by
  · have h1 := jlookup_sizeOf hms
    simp at h1 ⊢
    omega
  · have h1 := jlookup_sizeOf hch
    simp at h1 ⊢
    omega

/-- Embedding of the loop over the `"mounts"` array inside `parseSpecs`:
each element must be an object; results are concatenated in array
order, and the first error aborts (the accumulated `out` of the Go
code is discarded with it). -/
def parseMounts (mounts : List JVal) : Except String (List String) :=
  match mounts with
  | [] => Except.ok []
  | m :: rest =>
    match m with
    | JVal.obj fields =>
      match parseSpecs fields with
      | Except.error e => Except.error e
      | Except.ok paths =>
        match parseMounts rest with
        | Except.error e => Except.error e
        | Except.ok out => Except.ok (paths ++ out)
    | _ => Except.error "unexpected mount type"
termination_by sizeOf mounts
decreasing_by
  all_goals simp
  all_goals omega
end

/-- Valid datastore spec trees, as described in §3 of the specification:
`mount` fans out over an ordered list of children, `measure` wraps one
child, and the terminal backends are `badgerds` (with a path), `flatfs`
and `levelds`. -/
inductive SpecTree where
  | mount (children : List SpecTree)
  | measure (child : SpecTree)
  | badgerds (path : String)
  | flatfs
  | levelds

mutual
/-- JSON object fields of a valid spec tree, as `encoding/json` would
deliver them to `parseSpecs`. -/
def toFields : SpecTree → List (String × JVal)
  | SpecTree.mount cs => [("type", JVal.str "mount"), ("mounts", JVal.arr (toElems cs))]
  | SpecTree.measure c => [("type", JVal.str "measure"), ("child", JVal.obj (toFields c))]
  | SpecTree.badgerds p => [("type", JVal.str "badgerds"), ("path", JVal.str p)]
  | SpecTree.flatfs => [("type", JVal.str "flatfs")]
  | SpecTree.levelds => [("type", JVal.str "levelds")]

/-- JSON array elements for a list of children of a `mount` node. -/
def toElems : List SpecTree → List JVal
  | [] => []
  | t :: ts => JVal.obj (toFields t) :: toElems ts
end

mutual
/-- Paths of the `badgerds` leaves of a spec tree in depth-first
left-to-right encounter order, following the specification's wording:
measure passes its child's result through, mount concatenates its
children's results in array order, `badgerds` yields its path,
`flatfs`/`levelds` yield nothing. -/
def badgerPaths : SpecTree → List String
  | SpecTree.mount cs => badgerPathsList cs
  | SpecTree.measure c => badgerPaths c
  | SpecTree.badgerds p => [p]
  | SpecTree.flatfs => []
  | SpecTree.levelds => []

/-- Concatenation of `badgerPaths` over a list of children, in order. -/
def badgerPathsList : List SpecTree → List String
  | [] => []
  | t :: ts => badgerPaths t ++ badgerPathsList ts
end

mutual
/-- Decides whether every leaf of a spec tree is `flatfs` or `levelds`
(no `badgerds` leaf anywhere). -/
def noBadger : SpecTree → Bool
  | SpecTree.mount cs => noBadgerList cs
  | SpecTree.measure c => noBadger c
  | SpecTree.badgerds _ => false
  | SpecTree.flatfs => true
  | SpecTree.levelds => true

/-- Conjunction of `noBadger` over a list of children. -/
def noBadgerList : List SpecTree → Bool
  | [] => true
  | t :: ts => noBadger t && noBadgerList ts
end

mutual
/-- Well-formedness of a spec document node, written from the
specification's wording (§4.2): the `"type"` field must be a string
among the five recognized values, `mount` requires a `"mounts"` array
of well-formed objects, `measure` requires a well-formed `"child"`
object, `badgerds` requires a `"path"` string; anything else is
malformed. -/
def wfSpec (fields : List (String × JVal)) : Bool :=
  match jlookup fields "type" with
  | some (JVal.str t) =>
    if t = "mount" then
      match hms : jlookup fields "mounts" with
      | some (JVal.arr mounts) => wfMounts mounts
      | _ => false
    else if t = "measure" then
      match hch : jlookup fields "child" with
      | some (JVal.obj child) => wfSpec child
      | _ => false
    else if t = "badgerds" then
      match jlookup fields "path" with
      | some (JVal.str _) => true
      | _ => false
    else if t = "flatfs" then true
    else if t = "levelds" then true
    else false
  | _ => false
termination_by sizeOf fields
decreasing_by
  · have h1 := jlookup_sizeOf hms
    simp at h1 ⊢
    omega
  · have h1 := jlookup_sizeOf hch
    simp at h1 ⊢
    omega

/-- Well-formedness of the elements of a `"mounts"` array: every
element must be a well-formed object. -/
def wfMounts (mounts : List JVal) : Bool :=
  match mounts with
  | [] => true
  | JVal.obj fields :: rest => wfSpec fields && wfMounts rest
  | _ :: _ => false
termination_by sizeOf mounts
decreasing_by
  all_goals simp
  all_goals omega
end

/-- Opaque byte strings (Go `[]byte`), modelled as lists of byte
values. -/
abbrev ByteStr := List Nat

/-- One key/value record of a store (the `keyValue` struct of
upgrade.go lines 32-35). -/
abbrev KVPair := ByteStr × ByteStr

/-- Outcome of probing a directory with one of the two storage-engine
adapters.  The adapters are external black boxes, so the outcome is
part of the modelled world: `ok` means the store opens, `err msg`
means the open call returns an error whose `Error()` string is
`msg`. -/
inductive OpenRes where
  | ok
  | err (msg : String)
  deriving DecidableEq, Repr

/-- State of one directory under the repository root: the outcome each
adapter probe would report for it, and the key/value pairs of the
store in the old store's native iteration order. -/
structure DirState where
  open10 : OpenRes
  open08 : OpenRes
  contents : List KVPair
  deriving DecidableEq, Repr

/-- Filesystem under the repository root: directory path to state.
Absent key means the directory does not exist. -/
abbrev Fs := List (String × DirState)

/-- Look a directory up in the filesystem. -/
def fsFind : Fs → String → Option DirState
  | [], _ => none
  | (q, d) :: rest, p => if q = p then some d else fsFind rest p

/-- Remove a directory (model of `os.Remove` on an empty directory and
of the source side of a rename). -/
def fsErase : Fs → String → Fs
  | [], _ => []
  | (q, d) :: rest, p => if q = p then fsErase rest p else (q, d) :: fsErase rest p

/-- Create or replace a directory. -/
def fsSet (fs : Fs) (p : String) (d : DirState) : Fs :=
  (p, d) :: fsErase fs p

/-- Model of `os.Rename(src, dst)` when the OS reports success: the
directory at `src` now lives at `dst`.  (A successful rename with a
missing source does not occur in real executions; the claims'
hypotheses keep the source present.) -/
def fsRename (fs : Fs) (src dst : String) : Fs :=
  match fsFind fs src with
  | none => fs
  | some d => fsSet (fsErase fs src) dst d

/-- Typed failures of the engine, modelling the Go `error` values that
can escape `Upgrade`:  `invalidVersion` is the sentinel
`ErrInvalidVersion` ("unsupported badger version"), `cancelled` is the
sentinel `ErrCancelled` ("context cancelled"), `ioErr` is any error
returned by the OS or a storage adapter (identified by its message),
`atoiErr` a `strconv.Atoi` failure, `versionErr v` the formatted
"unsupported fsrepo version: v" error, and `specErr` an
`errors.New` message from `parseSpecs`. -/
inductive Err where
  | invalidVersion
  | cancelled
  | ioErr (msg : String)
  | atoiErr (text : String)
  | versionErr (v : Int)
  | specErr (msg : String)
  deriving DecidableEq, Repr

/-- The single supported source repository version (upgrade.go line
29; the constant's name keeps the source's spelling). -/
def SuppertedRepoVersion : Int := 6

/-- Go `unicode.IsSpace`, as used by `strings.TrimSpace`: the
White_Space code points. -/
def goIsSpace (c : Char) : Bool :=
  c.toNat ∈ [9, 10, 11, 12, 13, 32, 0x85, 0xA0, 0x1680,
    0x2000, 0x2001, 0x2002, 0x2003, 0x2004, 0x2005, 0x2006, 0x2007,
    0x2008, 0x2009, 0x200A, 0x2028, 0x2029, 0x202F, 0x205F, 0x3000]

/-- Model of Go `strings.TrimSpace`: drop leading and trailing
whitespace. -/
def goTrimSpace (s : String) : String :=
  String.mk (((s.data.dropWhile goIsSpace).reverse.dropWhile goIsSpace).reverse)

/-- Model of Go `strconv.Atoi`: an optional sign followed by at least
one decimal digit, nothing else, with the 64-bit range check (out of
range is an error, modelled as `none`). -/
def goAtoi (s : String) : Option Int :=
  let fromDigits : List Char → Bool → Option Int := fun ds neg =>
    if ds = [] then none
    else if ds.all Char.isDigit then
      let n : Int := Int.ofNat (ds.foldl (fun a c => a * 10 + (c.toNat - 48)) 0)
      let v : Int := if neg then -n else n
      if -(2 ^ 63) ≤ v ∧ v < 2 ^ 63 then some v else none
    else none
  match s.data with
  | [] => none
  | '-' :: rest => fromDigits rest true
  | '+' :: rest => fromDigits rest false
  | l => fromDigits l false

/-- World the engine runs against: the contents of the `version`
marker file (`Except.error` models an unreadable file), the
already-unmarshalled datastore spec document (`Except.error` models a
read or `json.Unmarshal` failure), and the filesystem. -/
structure World where
  versionFile : Except String String
  specsMap : Except String (List (String × JVal))
  fs : Fs

/-- Embedding of `checkRepoVersion` (upgrade.go lines 295-311): read
the marker, trim whitespace, parse with `Atoi`, and require the single
supported version. -/
def checkRepoVersion (w : World) : Except Err Unit :=
  match w.versionFile with
  | Except.error e => Except.error (Err.ioErr e)
  | Except.ok vstr =>
    match goAtoi (goTrimSpace vstr) with
    | none => Except.error (Err.atoiErr vstr)
    | some version =>
      if version ≠ SuppertedRepoVersion then Except.error (Err.versionErr version)
      else Except.ok ()

/-- Embedding of `loadSpecs` (upgrade.go lines 229-242): surface a
read/unmarshal failure, otherwise resolve the spec document with
`parseSpecs`. -/
def loadSpecs (w : World) : Except Err (List String) :=
  match w.specsMap with
  | Except.error e => Except.error (Err.ioErr e)
  | Except.ok spec =>
    match parseSpecs spec with
    | Except.error m => Except.error (Err.specErr m)
    | Except.ok paths => Except.ok paths

/-- Observable filesystem-mutating (or probing) actions of one run,
recorded as a ghost trace so that frame claims ("no rename occurred",
"the next adapter was tried") are directly statable. -/
inductive Effect where
  | probed10 (p : String)
  | probed08 (p : String)
  | tempDirMade (name : String)
  | removed (name : String)
  | renamed (src dst : String)
  | committed (dir : String)
  deriving DecidableEq, Repr

/-- Outcomes of the fallible OS and storage operations one call of
`migrateData` can perform, in program order: `ioutil.TempDir` for the
new store (`Except.ok` carries the fresh directory name),
`badger10.Open` on it, each `txn.Set` (indexed by entry number),
`txn.Commit`, `ioutil.TempDir` for the backup name, `os.Remove` of
that name, and the two `os.Rename` calls.  `none` / `Except.ok` is
success. -/
structure MigOracle where
  tempDirRes : Except String String
  openTempRes : Option String
  setRes : Nat → Option String
  commitRes : Option String
  backupDirRes : Except String String
  removeRes : Option String
  rename1Res : Option String
  rename2Res : Option String

/-- Result of one path's migration attempt (and of a whole run): the
error if any (`none` is success), the filesystem afterwards, the trace
of effects, and whether the run's shared context was cancelled
(`c.cancel()` called). -/
structure MigResult where
  res : Option Err
  fs : Fs
  effects : List Effect
  cancelled : Bool
  deriving Repr

/-- Model of `txn.Set(key, value)` on badger's transaction: pending
writes are a map keyed by the key, so a later set of the same key
overwrites the earlier one. -/
def txnSet (txn : List KVPair) (k v : ByteStr) : List KVPair :=
  txn.filter (fun e => decide (e.1 ≠ k)) ++ [(k, v)]

/-- The consumer loop of `migrateData` (upgrade.go lines 180-191):
receive the produced entries in order and apply each as `txn.Set`;
the first failing set aborts with its error, otherwise the final
transaction contents are returned.  `n` is the running entry count of
the source (used only for progress printing there, kept here as the
index into the set oracle). -/
def consumeLoop (setRes : Nat → Option String) :
    List KVPair → List KVPair → Nat → Except String (List KVPair)
  | txn, [], _ => Except.ok txn
  | txn, entry :: rest, n =>
    match setRes n with
    | some e => Except.error e
    | none => consumeLoop setRes (txnSet txn entry.1 entry.2) rest (n + 1)

/-- Directory state of a freshly created, still-empty temporary
directory: a new badger 1.0 store would open in it, and it holds no
records.  (Its probe fields are never consulted by the engine: the
engine only probes spec-resolved paths.) -/
def emptyDir : DirState :=
  { open10 := OpenRes.ok, open08 := OpenRes.err "manifest has unsupported version: 8",
    contents := [] }

/-- Directory state of a committed, freshly migrated badger 1.0 store
holding `txn`: the 1.0 probe succeeds on it, so a duplicate spec path
is skipped rather than re-migrated. -/
def newStoreDir (txn : List KVPair) : DirState :=
  { open10 := OpenRes.ok, open08 := OpenRes.err "manifest has unsupported version: 8",
    contents := txn }

/-- Embedding of `migrateData` (upgrade.go lines 155-227) with the
producer of `try08` folded in synchronously: `entries` is the sequence
of pairs the producer hands over in the old store's iteration order.
Every failure exit mirrors the source: the first three failure kinds
(temp dir creation, opening the new store, a failing set) call
`c.cancel()`; the transaction is committed only after the producer
closed the channel cleanly; then the backup name is reserved and
removed, the original is renamed to it, and the temporary store is
renamed to the original path.  Each failure returns the underlying
error unchanged. -/
def migrateData (fs : Fs) (entries : List KVPair) (p : String) (o : MigOracle) : MigResult :=
  match o.tempDirRes with
  | Except.error e => ⟨some (Err.ioErr e), fs, [], true⟩
  | Except.ok temp =>
    let fs1 := fsSet fs temp emptyDir
    match o.openTempRes with
    | some e => ⟨some (Err.ioErr e), fs1, [Effect.tempDirMade temp], true⟩
    | none =>
      match consumeLoop o.setRes [] entries 0 with
      | Except.error e => ⟨some (Err.ioErr e), fs1, [Effect.tempDirMade temp], true⟩
      | Except.ok txn =>
        match o.commitRes with
        | some e => ⟨some (Err.ioErr e), fs1, [Effect.tempDirMade temp], false⟩
        | none =>
          let fs2 := fsSet fs1 temp (newStoreDir txn)
          let eff2 := [Effect.tempDirMade temp, Effect.committed temp]
          match o.backupDirRes with
          | Except.error e => ⟨some (Err.ioErr e), fs2, eff2, false⟩
          | Except.ok backup =>
            let fs3 := fsSet fs2 backup emptyDir
            let eff3 := eff2 ++ [Effect.tempDirMade backup]
            match o.removeRes with
            | some e => ⟨some (Err.ioErr e), fs3, eff3, false⟩
            | none =>
              let fs4 := fsErase fs3 backup
              let eff4 := eff3 ++ [Effect.removed backup]
              match o.rename1Res with
              | some e => ⟨some (Err.ioErr e), fs4, eff4, false⟩
              | none =>
                let fs5 := fsRename fs4 p backup
                let eff5 := eff4 ++ [Effect.renamed p backup]
                match o.rename2Res with
                | some e => ⟨some (Err.ioErr e), fs5, eff5, false⟩
                | none =>
                  ⟨none, fsRename fs5 temp p, eff5 ++ [Effect.renamed temp p], false⟩

/-- Character-list version of `strings.HasPrefix`: does the second
list start with the first? -/
def listIsInit : List Char → List Char → Bool
  | [], _ => true
  | _ :: _, [] => false
  | a :: as, b :: bs => a = b && listIsInit as bs

/-- The stable rejection text badger emits when a store's on-disk
manifest is a different format version (upgrade.go lines 103 and
121). -/
def manifestSig : String := "manifest has unsupported version:"

/-- Does an adapter's open error carry the version-rejection
signature (`strings.HasPrefix(err.Error(), manifestSig)`)? -/
def hasVersionSig (e : String) : Bool := listIsInit manifestSig.data e.data

/-- Classification both probes apply to an open failure: a signature
failure becomes the sentinel `ErrInvalidVersion`, anything else is
returned as-is. -/
def classifyOpen (msg : String) : Err :=
  if hasVersionSig msg then Err.invalidVersion else Err.ioErr msg

/-- Embedding of `try10` (upgrade.go lines 95-111): probe the path
with the badger 1.0 adapter; on success close the handle and report
success, on failure classify the error.  A path absent from the
filesystem is not probed by any run the claims describe; its open
outcome is modelled as a plain error. -/
def try10 (fs : Fs) (p : String) : Option Err :=
  match fsFind fs p with
  | none => some (Err.ioErr "open: no such directory")
  | some d =>
    match d.open10 with
    | OpenRes.ok => none
    | OpenRes.err m => some (classifyOpen m)

/-- Embedding of `try08` (upgrade.go lines 113-153): probe the path
with the badger 0.8 adapter; on open failure classify the error; on
success start the producer over the store's contents and run
`migrateData` against it. -/
def try08 (fs : Fs) (p : String) (o : MigOracle) : MigResult :=
  match fsFind fs p with
  | none => ⟨some (Err.ioErr "open: no such directory"), fs, [Effect.probed08 p], false⟩
  | some d =>
    match d.open08 with
    | OpenRes.err m => ⟨some (classifyOpen m), fs, [Effect.probed08 p], false⟩
    | OpenRes.ok =>
      let r := migrateData fs d.contents p o
      ⟨r.res, r.fs, Effect.probed08 p :: r.effects, r.cancelled⟩

/-- Embedding of `upgradeDs` (upgrade.go lines 77-93): try the 1.0
adapter first; any outcome other than the `ErrInvalidVersion` sentinel
(success included) is returned as-is; on the sentinel fall through to
the 0.8 adapter the same way; if that also reports the sentinel,
return `ErrInvalidVersion`. -/
def upgradeDs (fs : Fs) (p : String) (o : MigOracle) : MigResult :=
  match try10 fs p with
  | none => ⟨none, fs, [Effect.probed10 p], false⟩
  | some e10 =>
    if e10 ≠ Err.invalidVersion then ⟨some e10, fs, [Effect.probed10 p], false⟩
    else
      let r := try08 fs p o
      let r' : MigResult := ⟨r.res, r.fs, Effect.probed10 p :: r.effects, r.cancelled⟩
      match r'.res with
      | none => r'
      | some e08 =>
        if e08 ≠ Err.invalidVersion then r'
        else ⟨some Err.invalidVersion, r'.fs, r'.effects, r'.cancelled⟩

/-- Model of `path.Join(base, dir)` for the clean relative names the
claims use (Go additionally normalizes `.` segments and duplicate
slashes, which no claim exercises). -/
def goPathJoin (base dir : String) : String := base ++ "/" ++ dir

/-- The per-path loop of `Upgrade` (upgrade.go lines 67-72): migrate
each resolved path in order, stopping at the first failure; `os n` is
the oracle for the n-th path's migration. -/
def upgradeAll (fs : Fs) (base : String) (dirs : List String) (os : Nat → MigOracle) :
    MigResult :=
  match dirs with
  | [] => ⟨none, fs, [], false⟩
  | dir :: rest =>
    let r := upgradeDs fs (goPathJoin base dir) (os 0)
    match r.res with
    | some e => ⟨some e, r.fs, r.effects, r.cancelled⟩
    | none =>
      let r2 := upgradeAll r.fs base rest (fun n => os (n + 1))
      ⟨r2.res, r2.fs, r.effects ++ r2.effects, r.cancelled || r2.cancelled⟩

/-- Embedding of `Upgrade` (upgrade.go lines 46-75): check the
repository version, resolve the spec document, then upgrade each
resolved path under the base directory in order. -/
def Upgrade (base : String) (w : World) (os : Nat → MigOracle) : MigResult :=
  match checkRepoVersion w with
  | Except.error e => ⟨some e, w.fs, [], false⟩
  | Except.ok _ =>
    match loadSpecs w with
    | Except.error e => ⟨some e, w.fs, [], false⟩
    | Except.ok dirs => upgradeAll w.fs base dirs os


theorem fsFind_fsErase (fs : Fs) (p q : String) :
    fsFind (fsErase fs p) q = if q = p then none else fsFind fs q := by
  induction fs with
  | nil => simp [fsErase, fsFind]
  | cons e rest ih =>
    obtain ⟨ek, ed⟩ := e
    by_cases hk : ek = p
    · rw [fsErase, if_pos hk, ih]
      by_cases hq : q = p
      · simp [hq]
      · have hek : ek ≠ q := by rw [hk]; exact fun h => hq h.symm
        simp [fsFind, hq, hek]
    · rw [fsErase, if_neg hk]
      by_cases he : ek = q
      · by_cases hq : q = p
        · exact absurd (he.trans hq) hk
        · simp [fsFind, he, hq]
      · simp [fsFind, he, ih]

theorem fsFind_fsSet (fs : Fs) (p : String) (d : DirState) (q : String) :
    fsFind (fsSet fs p d) q = if q = p then some d else fsFind fs q := by
  by_cases hq : q = p
  · simp [fsSet, fsFind, hq]
  · have hp : p ≠ q := fun h => hq h.symm
    simp [fsSet, fsFind, hp, hq, fsFind_fsErase]

/-- Transaction contents after applying every entry in order. -/
def txnAll (txn : List KVPair) (entries : List KVPair) : List KVPair :=
  entries.foldl (fun t e => txnSet t e.1 e.2) txn

theorem consumeLoop_ok_eq {setRes : Nat → Option String} :
    ∀ (entries txn : List KVPair) (n : Nat) (out : List KVPair),
      consumeLoop setRes txn entries n = Except.ok out → out = txnAll txn entries := by
  intro entries
  induction entries with
  | nil =>
    intro txn n out h
    simp [consumeLoop] at h
    simp [txnAll, h]
  | cons e rest ih =>
    intro txn n out h
    rw [consumeLoop] at h
    cases hs : setRes n with
    | some m => simp [hs] at h
    | none =>
      simp [hs] at h
      have := ih (txnSet txn e.1 e.2) (n + 1) out h
      simpa [txnAll] using this

theorem consumeLoop_all_ok {setRes : Nat → Option String}
    (hall : ∀ n, setRes n = none) :
    ∀ (entries txn : List KVPair) (n : Nat),
      consumeLoop setRes txn entries n = Except.ok (txnAll txn entries) := by
  intro entries
  induction entries with
  | nil => intro txn n; simp [consumeLoop, txnAll]
  | cons e rest ih =>
    intro txn n
    rw [consumeLoop]
    simp [hall n]
    simpa [txnAll] using ih (txnSet txn e.1 e.2) (n + 1)

theorem txnSet_of_fresh {txn : List KVPair} {k v : ByteStr}
    (h : k ∉ txn.map Prod.fst) : txnSet txn k v = txn ++ [(k, v)] := by
  unfold txnSet
  congr 1
  apply List.filter_eq_self.mpr
  intro e he
  have : e.1 ≠ k := by
    intro hek
    exact h (hek ▸ List.mem_map_of_mem Prod.fst he)
  simpa using this

theorem txnAll_of_nodup :
    ∀ (entries txn : List KVPair),
      (∀ k, k ∈ txn.map Prod.fst → k ∉ entries.map Prod.fst) →
      (entries.map Prod.fst).Nodup →
      txnAll txn entries = txn ++ entries := by
  intro entries
  induction entries with
  | nil => intro txn _ _; simp [txnAll]
  | cons e rest ih =>
    intro txn hdisj hnodup
    have hmapcons : (e :: rest).map Prod.fst = e.1 :: rest.map Prod.fst := rfl
    rw [hmapcons] at hnodup
    have h1 : e.1 ∉ rest.map Prod.fst := (List.nodup_cons.mp hnodup).1
    have h2 : (rest.map Prod.fst).Nodup := (List.nodup_cons.mp hnodup).2
    have hk : e.1 ∉ txn.map Prod.fst := by
      intro hmem
      apply hdisj e.1 hmem
      rw [hmapcons]
      exact List.mem_cons_self _ _
    rw [txnAll]
    simp only [List.foldl_cons]
    rw [txnSet_of_fresh hk]
    have hdisj' : ∀ k, k ∈ (txn ++ [(e.1, e.2)]).map Prod.fst →
        k ∉ rest.map Prod.fst := by
      intro k hkmem
      rw [List.map_append] at hkmem
      rcases List.mem_append.mp hkmem with hk1 | hk2
      · intro hmem
        apply hdisj k hk1
        rw [hmapcons]
        exact List.mem_cons_of_mem _ hmem
      · have hke : k = e.1 := by simpa using hk2
        subst hke
        exact h1
    have := ih (txn ++ [(e.1, e.2)]) hdisj' h2
    rw [txnAll] at this
    rw [this]
    simp

theorem txnAll_nil_of_nodup {entries : List KVPair}
    (hnodup : (entries.map Prod.fst).Nodup) : txnAll [] entries = entries := by
  simpa using txnAll_of_nodup entries [] (by simp) hnodup


mutual
/-- Resolution of a valid spec tree succeeds and returns exactly its
depth-first `badgerds` leaf paths. -/
def parseSpecs_toFields : (t : SpecTree) →
    parseSpecs (toFields t) = Except.ok (badgerPaths t)
  | SpecTree.mount cs => by
    rw [parseSpecs]
    simp [toFields, jlookup, badgerPaths]
    exact parseMounts_toElems cs
  | SpecTree.measure c => by
    rw [parseSpecs]
    simp [toFields, jlookup, badgerPaths]
    exact parseSpecs_toFields c
  | SpecTree.badgerds p => by
    rw [parseSpecs]
    simp [toFields, jlookup, badgerPaths]
  | SpecTree.flatfs => by
    rw [parseSpecs]
    simp [toFields, jlookup, badgerPaths]
  | SpecTree.levelds => by
    rw [parseSpecs]
    simp [toFields, jlookup, badgerPaths]
termination_by t => sizeOf t

/-- Resolution of the children of a valid `mount` node concatenates
their results in array order. -/
def parseMounts_toElems : (ts : List SpecTree) →
    parseMounts (toElems ts) = Except.ok (badgerPathsList ts)
  | [] => by
    simp only [toElems]
    rw [parseMounts]
    simp [badgerPathsList]
  | t :: ts => by
    simp only [toElems]
    rw [parseMounts]
    simp only [badgerPathsList]
    rw [parseSpecs_toFields t, parseMounts_toElems ts]
termination_by ts => sizeOf ts
end

mutual
/-- A spec tree with no `badgerds` leaf resolves to no paths. -/
def badgerPaths_nil_of_noBadger : (t : SpecTree) → noBadger t = true →
    badgerPaths t = []
  | SpecTree.mount cs => fun h => by
    rw [badgerPaths]
    exact badgerPathsList_nil_of_noBadger cs (by rwa [noBadger] at h)
  | SpecTree.measure c => fun h => by
    rw [badgerPaths]
    exact badgerPaths_nil_of_noBadger c (by rwa [noBadger] at h)
  | SpecTree.badgerds p => fun h => by simp [noBadger] at h
  | SpecTree.flatfs => fun _ => by rw [badgerPaths]
  | SpecTree.levelds => fun _ => by rw [badgerPaths]
termination_by t => sizeOf t

/-- A list of spec trees with no `badgerds` leaf resolves to no
paths. -/
def badgerPathsList_nil_of_noBadger : (ts : List SpecTree) →
    noBadgerList ts = true → badgerPathsList ts = []
  | [] => fun _ => by rw [badgerPathsList]
  | t :: ts => fun h => by
    rw [noBadgerList, Bool.and_eq_true] at h
    rw [badgerPathsList, badgerPaths_nil_of_noBadger t h.1,
      badgerPathsList_nil_of_noBadger ts h.2]
    rfl
termination_by ts => sizeOf ts
end

def isOkB : Except String (List String) → Bool
  | Except.ok _ => true
  | Except.error _ => false

mutual
def parseSpecs_isOkB (fields : List (String × JVal)) :
    isOkB (parseSpecs fields) = wfSpec fields := by
  rw [parseSpecs, wfSpec]
  cases hts : jlookup fields "type" with
  | none => simp [isOkB]
  | some v =>
    cases v with
    | str t =>
      by_cases h1 : t = "mount"
      · simp only [h1, reduceIte]
        cases hms : jlookup fields "mounts" with
        | none => simp [isOkB]
        | some mv =>
          cases mv with
          | arr ms => exact parseMounts_isOkB ms
          | str s => simp [isOkB]
          | num n => simp [isOkB]
          | bool b => simp [isOkB]
          | null => simp [isOkB]
          | obj fs => simp [isOkB]
      · by_cases h2 : t = "measure"
        · simp only [h1, h2, reduceIte]
          cases hch : jlookup fields "child" with
          | none => simp [isOkB]
          | some cv =>
            cases cv with
            | obj child => exact parseSpecs_isOkB child
            | str s => simp [isOkB]
            | num n => simp [isOkB]
            | bool b => simp [isOkB]
            | null => simp [isOkB]
            | arr els => simp [isOkB]
        · by_cases h3 : t = "badgerds"
          · simp only [h1, h2, h3, reduceIte]
            cases hpp : jlookup fields "path" with
            | none => simp [isOkB]
            | some pv =>
              cases pv with
              | str s => simp [isOkB]
              | num n => simp [isOkB]
              | bool b => simp [isOkB]
              | null => simp [isOkB]
              | arr els => simp [isOkB]
              | obj fs => simp [isOkB]
          · by_cases h4 : t = "flatfs"
            · simp [h1, h2, h3, h4, isOkB]
            · by_cases h5 : t = "levelds"
              · simp [h1, h2, h3, h4, h5, isOkB]
              · simp [h1, h2, h3, h4, h5, isOkB]
    | num n => simp [isOkB]
    | bool b => simp [isOkB]
    | null => simp [isOkB]
    | arr els => simp [isOkB]
    | obj fs => simp [isOkB]
termination_by sizeOf fields
decreasing_by
  · have hsz := jlookup_sizeOf hms
    simp at hsz ⊢
    omega
  · have hsz := jlookup_sizeOf hch
    simp at hsz ⊢
    omega

def parseMounts_isOkB : (mounts : List JVal) →
    isOkB (parseMounts mounts) = wfMounts mounts
  | [] => by
    simp [parseMounts, wfMounts, isOkB]
  | JVal.obj fields :: rest => by
    have h1 := parseSpecs_isOkB fields
    have h2 := parseMounts_isOkB rest
    rw [parseMounts, wfMounts]
    rw [← h1, ← h2]
    cases hp : parseSpecs fields with
    | error e => simp [isOkB]
    | ok paths =>
      cases hq : parseMounts rest with
      | error e => simp [isOkB]
      | ok out => simp [isOkB]
  | JVal.str s :: rest => by
    simp [parseMounts, wfMounts, isOkB]
  | JVal.num n :: rest => by
    simp [parseMounts, wfMounts, isOkB]
  | JVal.bool b :: rest => by
    simp [parseMounts, wfMounts, isOkB]
  | JVal.null :: rest => by
    simp [parseMounts, wfMounts, isOkB]
  | JVal.arr els :: rest => by
    simp [parseMounts, wfMounts, isOkB]
termination_by mounts => sizeOf mounts
decreasing_by
  all_goals simp
  all_goals omega
end

/-- Sample spec tree with nesting and a duplicate `badgerds` path,
used by witnesses. -/
def sampleTree : SpecTree :=
  SpecTree.mount
    [SpecTree.measure (SpecTree.badgerds "a"),
     SpecTree.flatfs,
     SpecTree.mount [SpecTree.badgerds "b", SpecTree.badgerds "a"],
     SpecTree.levelds]

/-- C3: for every valid spec tree, resolution succeeds and returns
exactly the paths of the `badgerds` leaves in depth-first
left-to-right encounter order with duplicates retained (`badgerPaths`,
under which measure nodes pass their child's result through unchanged
and mount nodes concatenate their children's results in array order),
and a tree whose leaves are all `flatfs` or `levelds` resolves to the
empty sequence. -/
theorem c3_flatten_exact (t : SpecTree) :
    parseSpecs (toFields t) = Except.ok (badgerPaths t) ∧
    (noBadger t = true → badgerPaths t = []) :=
  ⟨parseSpecs_toFields t, badgerPaths_nil_of_noBadger t⟩

/-- Witness for C3 at a concrete nested tree with a duplicate path,
and at a concrete badgerds-free tree. -/
theorem c3_flatten_exact_witness :
    parseSpecs (toFields sampleTree) = Except.ok ["a", "b", "a"] ∧
    badgerPaths (SpecTree.mount [SpecTree.flatfs, SpecTree.levelds]) = [] := by
  constructor
  · have h := (c3_flatten_exact sampleTree).1
    rw [h]
    simp [sampleTree, badgerPaths, badgerPathsList]
  · exact (c3_flatten_exact (SpecTree.mount [SpecTree.flatfs, SpecTree.levelds])).2
      (by rfl)

/-- Oracle in which every OS and storage operation succeeds, used by
witnesses. -/
def okOracle : MigOracle :=
  { tempDirRes := Except.ok "/r/badger-tmp1", openTempRes := none,
    setRes := fun _ => none, commitRes := none,
    backupDirRes := Except.ok "/r/badger-backup-1", removeRes := none,
    rename1Res := none, rename2Res := none }

/-- C7: a spec document whose tree is structurally malformed (a
`"type"` outside the five recognized values, or a required field
missing or of the wrong type, which is exactly `wfSpec _ = false`)
makes resolution fail with a parse error and no path list, and the
whole run returns that error untouched: no filesystem effect happens
and no partially accumulated sibling result is used. -/
theorem c7_malformed_rejected (base : String) (w : World) (os : Nat → MigOracle)
    (fields : List (String × JVal)) (hw : wfSpec fields = false)
    (hs : w.specsMap = Except.ok fields) (hv : checkRepoVersion w = Except.ok ()) :
    ∃ e, parseSpecs fields = Except.error e ∧
      Upgrade base w os = ⟨some (Err.specErr e), w.fs, [], false⟩ := by
  have h := parseSpecs_isOkB fields
  rw [hw] at h
  cases hp : parseSpecs fields with
  | ok l =>
    rw [hp] at h
    simp [isOkB] at h
  | error e =>
    refine ⟨e, rfl, ?_⟩
    simp only [Upgrade, loadSpecs, hv, hs, hp]

/-- World with a malformed spec document, used by the C7 witness. -/
def badSpecW : World :=
  { versionFile := Except.ok "6",
    specsMap := Except.ok [("type", JVal.str "bogus")], fs := [] }

/-- Witness for C7 at a concrete document whose node type is outside
the five recognized values. -/
theorem c7_malformed_rejected_witness :
    ∃ e, parseSpecs [("type", JVal.str "bogus")] = Except.error e ∧
      Upgrade "/r" badSpecW (fun _ => okOracle) = ⟨some (Err.specErr e), badSpecW.fs, [], false⟩ :=
  c7_malformed_rejected "/r" badSpecW (fun _ => okOracle) [("type", JVal.str "bogus")]
    (by simp [wfSpec, jlookup]) rfl rfl

/-- C4: a version marker that (after whitespace trimming) parses to an
integer different from the single supported version makes `Upgrade`
fail with the version error before any mutation — the filesystem is
returned unchanged and the effect trace is empty, so no temporary
directory, no backup directory and no rename happened anywhere; a
marker equal to the supported version passes the gate. -/
theorem c4_version_gate (base : String) (w : World) (os : Nat → MigOracle)
    (s : String) (v : Int) (hs : w.versionFile = Except.ok s)
    (hv : goAtoi (goTrimSpace s) = some v) :
    (v ≠ SuppertedRepoVersion →
      Upgrade base w os = ⟨some (Err.versionErr v), w.fs, [], false⟩) ∧
    (v = SuppertedRepoVersion → checkRepoVersion w = Except.ok ()) := by
  constructor
  · intro hne
    simp only [Upgrade, checkRepoVersion, hs, hv]
    simp [hne]
  · intro he
    simp [checkRepoVersion, hs, hv, he]

/-- World whose version marker reads 7, used by the C4 witness. -/
def badVersionW : World :=
  { versionFile := Except.ok " 7\n", specsMap := Except.ok [], fs := [] }

/-- Witness for C4 at concrete markers " 7\n" (rejected with no
effects) and "6" (passes the gate). -/
theorem c4_version_gate_witness :
    Upgrade "/r" badVersionW (fun _ => okOracle) =
      ⟨some (Err.versionErr 7), badVersionW.fs, [], false⟩ ∧
    checkRepoVersion { badVersionW with versionFile := Except.ok "6" } =
      Except.ok () := by
  constructor
  · exact (c4_version_gate "/r" badVersionW (fun _ => okOracle) " 7\n" 7 rfl rfl).1
      (by decide)
  · exact (c4_version_gate "/r" { badVersionW with versionFile := Except.ok "6" }
      (fun _ => okOracle) "6" 6 rfl rfl).2 rfl

/-- C5: for a resolved path present in the filesystem, the format
adapters are attempted in the fixed order badger 1.0 then badger 0.8
(the effect trace always starts with the 1.0 probe); a 1.0 open
failure with the version-rejection signature causes the 0.8 adapter to
be tried; any other 1.0 open failure aborts that path immediately with
that error — the 0.8 adapter is never tried and nothing else happens;
and when both adapters reject with the signature the path fails with
`ErrInvalidVersion`, the unsupported-store-format error. -/
theorem c5_probe_order (fs : Fs) (p : String) (o : MigOracle) (d : DirState)
    (hd : fsFind fs p = some d) :
    (∃ tl, (upgradeDs fs p o).effects = Effect.probed10 p :: tl) ∧
    (∀ m, d.open10 = OpenRes.err m → hasVersionSig m = true →
      Effect.probed08 p ∈ (upgradeDs fs p o).effects) ∧
    (∀ m, d.open10 = OpenRes.err m → hasVersionSig m = false →
      upgradeDs fs p o = ⟨some (Err.ioErr m), fs, [Effect.probed10 p], false⟩) ∧
    (∀ m m8, d.open10 = OpenRes.err m → hasVersionSig m = true →
      d.open08 = OpenRes.err m8 → hasVersionSig m8 = true →
      upgradeDs fs p o = ⟨some Err.invalidVersion, fs,
        [Effect.probed10 p, Effect.probed08 p], false⟩) := by
  refine ⟨?_, ?_, ?_, ?_⟩
  · unfold upgradeDs
    cases h10 : try10 fs p with
    | none => exact ⟨[], rfl⟩
    | some e =>
      by_cases he : e = Err.invalidVersion
      · simp only [he, ne_eq, not_true_eq_false, reduceIte]
        cases h08 : (try08 fs p o).res with
        | none => exact ⟨(try08 fs p o).effects, by simp [h08]⟩
        | some e8 =>
          by_cases he8 : e8 = Err.invalidVersion
          · exact ⟨(try08 fs p o).effects, by simp [h08, he8]⟩
          · exact ⟨(try08 fs p o).effects, by simp [h08, he8]⟩
      · simp [he]
  · intro m hm hsig
    have h10 : try10 fs p = some Err.invalidVersion := by
      simp [try10, hd, hm, classifyOpen, hsig]
    unfold upgradeDs
    rw [h10]
    simp only [ne_eq, not_true_eq_false, reduceIte]
    have h08eff : ∃ tl, (try08 fs p o).effects = Effect.probed08 p :: tl := by
      unfold try08
      rw [hd]
      cases ho8 : d.open08 with
      | err m8 =>
        refine ⟨[], ?_⟩
        simp [ho8]
      | ok =>
        refine ⟨(migrateData fs d.contents p o).effects, ?_⟩
        simp [ho8]
    obtain ⟨tl, htl⟩ := h08eff
    cases h08 : (try08 fs p o).res with
    | none => simp [htl]
    | some e8 =>
      by_cases he8 : e8 = Err.invalidVersion
      · simp [htl, h08, he8]
      · simp [htl, h08, he8]
  · intro m hm hsig
    have h10 : try10 fs p = some (Err.ioErr m) := by
      simp [try10, hd, hm, classifyOpen, hsig]
    unfold upgradeDs
    rw [h10]
    simp
  · intro m m8 hm hsig hm8 hsig8
    have h10 : try10 fs p = some Err.invalidVersion := by
      simp [try10, hd, hm, classifyOpen, hsig]
    have h08 : try08 fs p o =
        ⟨some Err.invalidVersion, fs, [Effect.probed08 p], false⟩ := by
      simp [try08, hd, hm8, classifyOpen, hsig8]
    unfold upgradeDs
    rw [h10]
    simp [h08]

/-- Directory whose 1.0 probe fails without the version-rejection
signature, used by the C5 witness. -/
def probeD : DirState :=
  { open10 := OpenRes.err "permission denied", open08 := OpenRes.ok, contents := [] }

/-- Witness for C5: a non-signature open failure aborts the path at
once, with the raw error and without trying the 0.8 adapter. -/
theorem c5_probe_order_witness :
    upgradeDs [("/r/a", probeD)] "/r/a" okOracle =
      ⟨some (Err.ioErr "permission denied"), [("/r/a", probeD)],
       [Effect.probed10 "/r/a"], false⟩ :=
  (c5_probe_order [("/r/a", probeD)] "/r/a" okOracle probeD rfl).2.2.1
    "permission denied" rfl rfl

/-- C10: a resolved path whose store opens successfully under the
badger 1.0 adapter is reported as success without any migration — the
filesystem is unchanged and the only effect is the 1.0 probe (the
handle is closed inside `try10`, which performs no mutation) — and the
per-path loop then proceeds to the next resolved path, the rest of the
run being exactly the run on the remaining paths. -/
theorem c10_new_format_skipped (fs : Fs) (base dir : String) (rest : List String)
    (os : Nat → MigOracle) (d : DirState)
    (hd : fsFind fs (goPathJoin base dir) = some d) (h10 : d.open10 = OpenRes.ok) :
    upgradeDs fs (goPathJoin base dir) (os 0) =
      ⟨none, fs, [Effect.probed10 (goPathJoin base dir)], false⟩ ∧
    upgradeAll fs base (dir :: rest) os =
      ⟨(upgradeAll fs base rest (fun n => os (n + 1))).res,
       (upgradeAll fs base rest (fun n => os (n + 1))).fs,
       Effect.probed10 (goPathJoin base dir) ::
         (upgradeAll fs base rest (fun n => os (n + 1))).effects,
       (upgradeAll fs base rest (fun n => os (n + 1))).cancelled⟩ := by
  have hds : upgradeDs fs (goPathJoin base dir) (os 0) =
      ⟨none, fs, [Effect.probed10 (goPathJoin base dir)], false⟩ := by
    unfold upgradeDs
    have ht : try10 fs (goPathJoin base dir) = none := by
      simp [try10, hd, h10]
    rw [ht]
  refine ⟨hds, ?_⟩
  rw [upgradeAll]
  rw [hds]
  simp

/-- Directory already in the new format, used by the C10 witness. -/
def d10 : DirState := { open10 := OpenRes.ok, open08 := OpenRes.ok, contents := [] }

/-- Witness for C10 at a one-path run over a store already in the new
format. -/
theorem c10_witness :
    upgradeAll [("/r/a", d10)] "/r" ["a"] (fun _ => okOracle) =
      ⟨none, [("/r/a", d10)], [Effect.probed10 "/r/a"], false⟩ := by
  have h := (c10_new_format_skipped [("/r/a", d10)] "/r" "a" []
    (fun _ => okOracle) d10 rfl rfl).2
  rw [h]
  rfl

/-- C6: whenever the shared cancellation signal is triggered during a
path's migration (the `cancelled` flag, set exactly at the three
`c.cancel()` sites of the source, all of which fire while the producer
has not finished), the consumer's in-flight transaction is never
committed: the migration fails, no commit effect is in the trace, and
the destination store afterwards either holds zero records (the fresh
temporary directory is still `emptyDir`) or was never created at all
(the filesystem is unchanged when the temporary directory could not be
made) — never a proper nonempty subset of the records. -/
theorem c6_cancel_no_commit (fs : Fs) (entries : List KVPair) (p : String)
    (o : MigOracle) (hc : (migrateData fs entries p o).cancelled = true) :
    (migrateData fs entries p o).res.isSome = true ∧
    (∀ t, Effect.committed t ∉ (migrateData fs entries p o).effects) ∧
    (∀ t, o.tempDirRes = Except.ok t →
      fsFind (migrateData fs entries p o).fs t = some emptyDir) ∧
    (∀ e, o.tempDirRes = Except.error e → (migrateData fs entries p o).fs = fs) := by
  cases htd : o.tempDirRes with
  | error e =>
    simp [migrateData, htd]
  | ok temp =>
    cases hop : o.openTempRes with
    | some e =>
      simp [migrateData, htd, hop, fsFind_fsSet]
    | none =>
      cases hcl : consumeLoop o.setRes [] entries 0 with
      | error e =>
        simp [migrateData, htd, hop, hcl, fsFind_fsSet]
      | ok txn =>
        cases hcm : o.commitRes with
        | some e =>
          simp [migrateData, htd, hop, hcl, hcm] at hc
        | none =>
          cases hbk : o.backupDirRes with
          | error e =>
            simp [migrateData, htd, hop, hcl, hcm, hbk] at hc
          | ok backup =>
            cases hrm : o.removeRes with
            | some e =>
              simp [migrateData, htd, hop, hcl, hcm, hbk, hrm] at hc
            | none =>
              cases hr1 : o.rename1Res with
              | some e =>
                simp [migrateData, htd, hop, hcl, hcm, hbk, hrm, hr1] at hc
              | none =>
                cases hr2 : o.rename2Res with
                | some e =>
                  simp [migrateData, htd, hop, hcl, hcm, hbk, hrm, hr1, hr2] at hc
                | none =>
                  simp [migrateData, htd, hop, hcl, hcm, hbk, hrm, hr1, hr2] at hc

/-- Oracle whose first `txn.Set` fails, used by C6/C9 concrete runs. -/
def setFailOracle : MigOracle :=
  { okOracle with setRes := fun n => if n = 0 then some "disk write failed" else none }

/-- Witness for C6 at a concrete run cancelled by a failing set: the
migration fails, nothing was committed, and the destination directory
holds zero records. -/
theorem c6_cancel_no_commit_witness :
    (migrateData [] [([1], [2])] "/r/a" setFailOracle).cancelled = true ∧
    (migrateData [] [([1], [2])] "/r/a" setFailOracle).res.isSome = true ∧
    Effect.committed "/r/badger-tmp1" ∉
      (migrateData [] [([1], [2])] "/r/a" setFailOracle).effects ∧
    fsFind (migrateData [] [([1], [2])] "/r/a" setFailOracle).fs "/r/badger-tmp1" =
      some emptyDir := by
  have h := c6_cancel_no_commit [] [([1], [2])] "/r/a" setFailOracle rfl
  exact ⟨rfl, h.1, h.2.1 "/r/badger-tmp1", h.2.2.1 "/r/badger-tmp1" rfl⟩

/-- C9 as amended: whenever a path's migration is abandoned because
the shared cancellation signal was triggered, the run fails with the
underlying I/O error that triggered the cancellation — never with the
`ErrCancelled` sentinel.  (`ErrCancelled` is only used inside the
producer goroutine, which swallows it at `if err == ErrCancelled {
return }`, upgrade.go line 141; no caller-visible error path returns
it.) -/
theorem c9_cancel_error_kind (fs : Fs) (entries : List KVPair) (p : String)
    (o : MigOracle) (hc : (migrateData fs entries p o).cancelled = true) :
    (∃ m, (migrateData fs entries p o).res = some (Err.ioErr m)) ∧
    (migrateData fs entries p o).res ≠ some Err.cancelled := by
  cases htd : o.tempDirRes with
  | error e =>
    simp [migrateData, htd]
  | ok temp =>
    cases hop : o.openTempRes with
    | some e =>
      simp [migrateData, htd, hop]
    | none =>
      cases hcl : consumeLoop o.setRes [] entries 0 with
      | error e =>
        simp [migrateData, htd, hop, hcl]
      | ok txn =>
        cases hcm : o.commitRes with
        | some e =>
          simp [migrateData, htd, hop, hcl, hcm] at hc
        | none =>
          cases hbk : o.backupDirRes with
          | error e =>
            simp [migrateData, htd, hop, hcl, hcm, hbk] at hc
          | ok backup =>
            cases hrm : o.removeRes with
            | some e =>
              simp [migrateData, htd, hop, hcl, hcm, hbk, hrm] at hc
            | none =>
              cases hr1 : o.rename1Res with
              | some e =>
                simp [migrateData, htd, hop, hcl, hcm, hbk, hrm, hr1] at hc
              | none =>
                cases hr2 : o.rename2Res with
                | some e =>
                  simp [migrateData, htd, hop, hcl, hcm, hbk, hrm, hr1, hr2] at hc
                | none =>
                  simp [migrateData, htd, hop, hcl, hcm, hbk, hrm, hr1, hr2] at hc

/-- Badger-0.8-format directory used by concrete runs. -/
def store08 : DirState :=
  { open10 := OpenRes.err "manifest has unsupported version: 4",
    open08 := OpenRes.ok, contents := [([1], [2]), ([3], [4])] }

/-- Counterexample to C9 as stated: a concrete run whose migration is
abandoned under the cancellation signal (`cancelled = true`), yet the
run fails with the plain I/O error that triggered the cancel, not with
the distinguished Cancelled error. -/
theorem c9_counterexample :
    (upgradeDs [("/r/a", store08)] "/r/a" setFailOracle).cancelled = true ∧
    (upgradeDs [("/r/a", store08)] "/r/a" setFailOracle).res =
      some (Err.ioErr "disk write failed") ∧
    (upgradeDs [("/r/a", store08)] "/r/a" setFailOracle).res ≠
      some Err.cancelled :=
  ⟨rfl, rfl, by decide⟩

/-- Witness for the amended C9 at a concrete cancelled run. -/
theorem c9_cancel_error_kind_witness :
    (∃ m, (migrateData [] [([5], [6])] "/r/b" setFailOracle).res =
      some (Err.ioErr m)) ∧
    (migrateData [] [([5], [6])] "/r/b" setFailOracle).res ≠
      some Err.cancelled :=
  c9_cancel_error_kind [] [([5], [6])] "/r/b" setFailOracle rfl

/-- C2 as amended: if the second rename (temporary store to original
path) fails after the first rename (original path to backup name)
succeeded, the original data is still fully present at the backup
location — the backup directory holds exactly the original directory
state — and the operation fails with the underlying rename error,
which the code returns unchanged (there is no distinguished "manual
recovery needed" error kind; see the counterexample). -/
theorem c2_swap_backup_preserved (fs : Fs) (p temp backup e2 : String)
    (d : DirState) (o : MigOracle)
    (hd : fsFind fs p = some d)
    (ht : o.tempDirRes = Except.ok temp) (hop : o.openTempRes = none)
    (hcm : o.commitRes = none) (hb : o.backupDirRes = Except.ok backup)
    (hrm : o.removeRes = none) (hr1 : o.rename1Res = none)
    (hr2 : o.rename2Res = some e2)
    (htp : temp ≠ p) (hbp : backup ≠ p) (hbt : backup ≠ temp) :
    ∀ txn, consumeLoop o.setRes [] d.contents 0 = Except.ok txn →
    (migrateData fs d.contents p o).res = some (Err.ioErr e2) ∧
    fsFind (migrateData fs d.contents p o).fs backup = some d := by
  intro txn hcl
  have hpt : p ≠ temp := Ne.symm htp
  have hpb : p ≠ backup := Ne.symm hbp
  have htb : temp ≠ backup := Ne.symm hbt
  constructor
  · simp [migrateData, ht, hop, hcl, hcm, hb, hrm, hr1, hr2]
  · simp only [migrateData, ht, hop, hcl, hcm, hb, hrm, hr1, hr2]
    simp [fsRename, fsFind_fsSet, fsFind_fsErase, hd, hpt, hpb, htb, htp, hbp, hbt]

/-- Oracle whose second rename fails, used by C2 concrete runs. -/
def rename2FailO : MigOracle := { okOracle with rename2Res := some "device busy" }

/-- Oracle whose first rename fails, used by the C2 counterexample. -/
def rename1FailO : MigOracle := { okOracle with rename1Res := some "device busy" }

/-- Counterexample to C2 as stated: at a concrete store, the error
reported when the second rename fails after the first succeeded is the
plain I/O error of the failed rename — byte-for-byte the same error a
failure of the *first* rename produces — so the failure is not
reported with a distinguished "manual recovery needed" error kind
different from every other error kind. -/
theorem c2_counterexample :
    (migrateData [("/r/a", store08)] store08.contents "/r/a" rename2FailO).res =
      some (Err.ioErr "device busy") ∧
    (migrateData [("/r/a", store08)] store08.contents "/r/a" rename1FailO).res =
      some (Err.ioErr "device busy") ∧
    (migrateData [("/r/a", store08)] store08.contents "/r/a" rename2FailO).res =
      (migrateData [("/r/a", store08)] store08.contents "/r/a" rename1FailO).res :=
  ⟨rfl, rfl, rfl⟩

/-- Witness for the amended C2 at a concrete run: the run fails with
the raw rename error and the backup directory holds the original
store. -/
theorem c2_swap_backup_preserved_witness :
    (migrateData [("/r/a", store08)] store08.contents "/r/a" rename2FailO).res =
      some (Err.ioErr "device busy") ∧
    fsFind (migrateData [("/r/a", store08)] store08.contents "/r/a" rename2FailO).fs
      "/r/badger-backup-1" = some store08 :=
  c2_swap_backup_preserved [("/r/a", store08)] "/r/a" "/r/badger-tmp1"
    "/r/badger-backup-1" "device busy" store08 rename2FailO rfl rfl rfl rfl rfl rfl
    rfl rfl (by decide) (by decide) (by decide) [([1], [2]), ([3], [4])] rfl

/-- C1: for a badger-0.8-format store at a resolved path (the 1.0
probe rejects it with the version signature, the 0.8 probe opens it)
holding a finite set of key/value pairs (distinct keys) in an
arbitrary iteration order, if the path's upgrade completes
successfully then the store at the original path afterwards holds
exactly that set of pairs — here even the same list, so same keys,
byte-identical values, no extra and no missing entries — regardless of
the old store's iteration order (the content list is universally
quantified).  The temporary and backup directory names are fresh, as
`ioutil.TempDir` guarantees. -/
theorem c1_roundtrip (fs : Fs) (p temp backup m10 : String)
    (d : DirState) (o : MigOracle)
    (hd : fsFind fs p = some d)
    (h10 : d.open10 = OpenRes.err m10) (hsig : hasVersionSig m10 = true)
    (h08 : d.open08 = OpenRes.ok)
    (hnodup : (d.contents.map Prod.fst).Nodup)
    (ht : o.tempDirRes = Except.ok temp) (hb : o.backupDirRes = Except.ok backup)
    (htp : temp ≠ p) (hbp : backup ≠ p) (hbt : backup ≠ temp)
    (hsucc : (upgradeDs fs p o).res = none) :
    ∃ d', fsFind (upgradeDs fs p o).fs p = some d' ∧
      d'.contents = d.contents ∧
      (∀ kv : KVPair, kv ∈ d'.contents ↔ kv ∈ d.contents) := by
  have hpt : p ≠ temp := Ne.symm htp
  have hpb : p ≠ backup := Ne.symm hbp
  have htb : temp ≠ backup := Ne.symm hbt
  have h10' : try10 fs p = some Err.invalidVersion := by
    simp [try10, hd, h10, classifyOpen, hsig]
  have h8 : try08 fs p o =
      ⟨(migrateData fs d.contents p o).res, (migrateData fs d.contents p o).fs,
       Effect.probed08 p :: (migrateData fs d.contents p o).effects,
       (migrateData fs d.contents p o).cancelled⟩ := by
    simp [try08, hd, h08]
  rw [upgradeDs, h10'] at hsucc ⊢
  simp only [ne_eq, not_true_eq_false, reduceIte, h8] at hsucc ⊢
  cases hmr : (migrateData fs d.contents p o).res with
  | some e =>
    by_cases he : e = Err.invalidVersion <;> simp [hmr, he] at hsucc
  | none =>
    simp only [hmr] at hsucc ⊢
    cases hop : o.openTempRes with
    | some e => simp [migrateData, ht, hop] at hmr
    | none =>
      cases hcl : consumeLoop o.setRes [] d.contents 0 with
      | error e => simp [migrateData, ht, hop, hcl] at hmr
      | ok txn =>
        have htxn : txn = d.contents := by
          have := consumeLoop_ok_eq d.contents [] 0 txn hcl
          rw [this]
          exact txnAll_nil_of_nodup hnodup
        cases hcm : o.commitRes with
        | some e => simp [migrateData, ht, hop, hcl, hcm] at hmr
        | none =>
          cases hrm : o.removeRes with
          | some e => simp [migrateData, ht, hop, hcl, hcm, hb, hrm] at hmr
          | none =>
            cases hr1 : o.rename1Res with
            | some e => simp [migrateData, ht, hop, hcl, hcm, hb, hrm, hr1] at hmr
            | none =>
              cases hr2 : o.rename2Res with
              | some e =>
                simp [migrateData, ht, hop, hcl, hcm, hb, hrm, hr1, hr2] at hmr
              | none =>
                refine ⟨newStoreDir txn, ?_, ?_, ?_⟩
                · simp only [migrateData, ht, hop, hcl, hcm, hb, hrm, hr1, hr2]
                  simp [fsRename, fsFind_fsSet, fsFind_fsErase, hd,
                    hpt, hpb, htb, htp, hbp, hbt]
                · simpa [newStoreDir] using htxn
                · intro kv
                  simp [newStoreDir, htxn]

/-- Witness for C1 at a concrete two-record 0.8 store and an
all-success oracle. -/
theorem c1_roundtrip_witness :
    ∃ d', fsFind (upgradeDs [("/r/a", store08)] "/r/a" okOracle).fs "/r/a" = some d' ∧
      d'.contents = store08.contents ∧
      (∀ kv : KVPair, kv ∈ d'.contents ↔ kv ∈ store08.contents) :=
  c1_roundtrip [("/r/a", store08)] "/r/a" "/r/badger-tmp1" "/r/badger-backup-1"
    "manifest has unsupported version: 4" store08 okOracle rfl rfl rfl rfl
    (by decide) rfl rfl (by decide) (by decide) (by decide) rfl
